import Mathlib

/-!
Verification of the response-recovery layer of the ResumeRanker service.

The definitions below are a shallow embedding of the Python sources:

* `app/services/resume_scorer.py`  — `score_resume_against_criteria`'s
  response parsing / tiered recovery ("the sanitizer", lines 48-189);
* `app/services/name_extractor.py` — `extract_candidate_name`'s
  parse-and-validate chain (lines 49-155);
* `app/services/criteria_extractor.py` — `extract_criteria_from_text`'s
  response parsing (lines 46-92);
* `app/services/crew_manager.py` — the `async_retry` decorator (lines 19-41).

Modelling conventions:
* Python values decoded from JSON are represented by the `Json` inductive.
  Numbers are exact decimal rationals `n / d` (`d` a power of ten produced by
  the parser); Python's `int` and `float` are not distinguished downstream by
  the source (only `isinstance(x, (int, float))`, comparisons and `int(x)` are
  applied, and `bool` counts as `int`), so a single numeric representation is
  faithful.  `NaN`, `Infinity` and `-Infinity` (accepted by `json.loads`)
  get their own constructors.  IEEE rounding of float literals is not
  modelled (scores compared against 0 and 5 are unaffected except at
  pathological precision); lone surrogate escapes are mapped through
  `Char.ofNat`.
* Python exceptions are modelled with `Except`: an `.error` value stands for a
  raised exception, and the code's `except` blocks become `match` on it.
* Regular-expression character classes `\s` and `\d` are modelled by their
  ASCII parts (the concrete texts considered are ASCII).
* `re.findall` is modelled by a leftmost, non-overlapping scan; the three
  patterns of the source are deterministic (no backtracking is ever needed:
  every repetition body is disjoint from what follows it).
* Python `dict` is an association list with insertion order, last-duplicate
  value on lookup, first-position update on assignment.
-/

namespace ResumeRanker

/-- A decoded Python value as produced by `json.loads`: `num n d` is the exact
rational `n / d` (integer literals have `d = 1`); `nan` / `inf` model the
non-standard `NaN` / `Infinity` constants Python's decoder accepts. -/
inductive Json where
  | null
  | bool (b : Bool)
  | num (n : Int) (d : Nat)
  | nan
  | inf (neg : Bool)
  | str (s : String)
  | arr (elems : List Json)
  | obj (fields : List (String × Json))

/-- Integer-valued Python number (what `int` scores normalize to). -/
def jint (i : Int) : Json := Json.num i 1

/-! ### Python `dict` semantics over parsed objects (string keys) -/

/-- Key membership of a Python dict built from a JSON object. -/
def pyHasKey (fields : List (String × Json)) (k : String) : Bool :=
  fields.any (fun p => p.1 == k)

/-- Lookup in a Python dict built from a JSON object: with duplicate keys in
the JSON text the last value wins (CPython `json` behaviour). -/
def pyGetD (fields : List (String × Json)) (k : String) (dflt : Json) : Json :=
  (fields.foldl (fun acc p => if p.1 == k then some p.2 else acc) none).getD dflt

/-- Iteration order of the keys of a Python dict built from a JSON object:
first occurrence position, each key once. -/
def pyKeys (fields : List (String × Json)) : List String :=
  fields.foldl (fun acc p => if acc.contains p.1 then acc else acc ++ [p.1]) []

/-! ### The `json.loads` embedding

A strict recursive-descent parser for the grammar accepted by Python's
`json.loads` on `str` input: RFC 8259 plus the `NaN` / `Infinity` /
`-Infinity` extensions, leading-zero integers rejected, unescaped control
characters rejected, whitespace restricted to space / tab / LF / CR.
Recursion is on a fuel counter (`length + 1` always suffices: every nested
value and every member consumes at least one character first). -/

/-- JSON inter-token whitespace (exactly the four characters Python's
decoder skips). -/
def isJsonWs (c : Char) : Bool :=
  c == ' ' || c == '\t' || c == '\n' || c == '\r'

/-- Drop leading JSON whitespace. -/
def skipJsonWs : List Char → List Char
  | c :: cs => if isJsonWs c then skipJsonWs cs else c :: cs
  | [] => []

/-- ASCII decimal digit. -/
def isDig (c : Char) : Bool := '0' ≤ c && c ≤ '9'

/-- Split a maximal run of ASCII digits off the front. -/
def takeDigs : List Char → List Char × List Char
  | c :: cs =>
    if isDig c then
      let (ds, r) := takeDigs cs
      (c :: ds, r)
    else ([], c :: cs)
  | [] => ([], [])

/-- Numeric value of a digit run (Python `int` of a digit string). -/
def digsToNat (ds : List Char) : Nat :=
  ds.foldl (fun a c => a * 10 + (c.toNat - '0'.toNat)) 0

/-- Value of one hex digit: `0-9`, `a-f` or `A-F` (by code point). -/
def hexDigVal (c : Char) : Option Nat :=
  let n := c.toNat
  if 48 ≤ n && n ≤ 57 then some (n - 48)
  else if 97 ≤ n && n ≤ 102 then some (n - 87)
  else if 65 ≤ n && n ≤ 70 then some (n - 55)
  else none

/-- Value of a `\uXXXX` escape's four hex digits, if all are hex. -/
def hexQuad (a b c d : Char) : Option Nat :=
  match hexDigVal a, hexDigVal b, hexDigVal c, hexDigVal d with
  | some va, some vb, some vc, some vd =>
    some (va * 4096 + vb * 256 + vc * 16 + vd)
  | _, _, _, _ => none

/-- Parse the body of a JSON string, the opening quote already consumed.
Strict mode: unescaped control characters (< 0x20) and unknown escapes are
errors; `\uXXXX` surrogate pairs are combined.  Fuel-based recursion (each
step consumes at least one character, so `length + 1` fuel suffices). -/
def parseJStrF : Nat → List Char → Option (List Char × List Char)
  | 0, _ => none
  | _ + 1, '"' :: rest => some ([], rest)
  | fuel + 1, '\\' :: 'u' :: a :: b :: c :: d :: rest =>
    match hexQuad a b c d with
    | none => none
    | some n =>
      if 0xD800 ≤ n && n ≤ 0xDBFF then
        match rest with
        | '\\' :: 'u' :: a2 :: b2 :: c2 :: d2 :: rest2 =>
          match hexQuad a2 b2 c2 d2 with
          | some m =>
            if 0xDC00 ≤ m && m ≤ 0xDFFF then
              match parseJStrF fuel rest2 with
              | some (body, r) =>
                some (Char.ofNat (0x10000 + (n - 0xD800) * 0x400 + (m - 0xDC00)) :: body, r)
              | none => none
            else
              -- lone high surrogate: keep it and reprocess from the next escape
              match parseJStrF fuel rest with
              | some (body, r) => some (Char.ofNat n :: body, r)
              | none => none
          | none => none
        | _ =>
          match parseJStrF fuel rest with
          | some (body, r) => some (Char.ofNat n :: body, r)
          | none => none
      else
        match parseJStrF fuel rest with
        | some (body, r) => some (Char.ofNat n :: body, r)
        | none => none
  | fuel + 1, '\\' :: e :: rest =>
    let esc : Option Char :=
      match e with
      | '"' => some '"'
      | '\\' => some '\\'
      | '/' => some '/'
      | 'b' => some (Char.ofNat 8)
      | 'f' => some (Char.ofNat 12)
      | 'n' => some '\n'
      | 'r' => some '\r'
      | 't' => some '\t'
      | _ => none
    match esc with
    | none => none
    | some ch =>
      match parseJStrF fuel rest with
      | some (body, r) => some (ch :: body, r)
      | none => none
  | fuel + 1, c :: rest =>
    if c.toNat < 0x20 then none
    else
      match parseJStrF fuel rest with
      | some (body, r) => some (c :: body, r)
      | none => none
  | _ + 1, [] => none

/-- Parse a JSON string body with adequate fuel. -/
def parseJStr (s : List Char) : Option (List Char × List Char) :=
  parseJStrF (s.length + 1) s

/-- Parse a JSON number (the grammar's `int frac? exp?`), given the sign and
the remaining input starting at the first digit.  Leading zeros are rejected
(`0` only stands alone); a fraction or exponent must have at least one
digit.  The value is returned as an exact decimal `n / d`. -/
def parseNumBody (neg : Bool) (s : List Char) : Option (Json × List Char) :=
  match s with
  | [] => none
  | c :: _ =>
    if !isDig c then none
    else
      let (intDs, s1) := takeDigs s
      -- leading zero: the integer part is a single `0` or starts nonzero
      if intDs.length > 1 && intDs.headD '0' == '0' then none
      else
        let (fracDs, s2) :=
          match s1 with
          | '.' :: r =>
            let (ds, r') := takeDigs r
            if ds.isEmpty then ([], s1) else (ds, r')
          | _ => ([], s1)
        -- a dot not followed by a digit is not part of the number
        match s1, fracDs with
        | '.' :: _, [] => none
        | _, _ =>
          let (expVal, s3) : Option Int × List Char :=
            match s2 with
            | 'e' :: r | 'E' :: r =>
              let (esign, r1) : Bool × List Char :=
                match r with
                | '+' :: r' => (false, r')
                | '-' :: r' => (true, r')
                | _ => (false, r)
              let (eds, r2) := takeDigs r1
              if eds.isEmpty then (none, s2)
              else (some (if esign then -(digsToNat eds : Int) else (digsToNat eds : Int)), r2)
            | _ => (some 0, s2)
          match expVal with
          | none => none
          | some e =>
            let mant : Int := (digsToNat intDs * 10 ^ fracDs.length + digsToNat fracDs : Nat)
            let mant : Int := if neg then -mant else mant
            let e' : Int := e - fracDs.length
            if 0 ≤ e' then some (Json.num (mant * 10 ^ e'.toNat) 1, s3)
            else some (Json.num mant (10 ^ (-e').toNat), s3)

/-- Match a literal character sequence, returning the rest. -/
def matchLit : List Char → List Char → Option (List Char)
  | [], s => some s
  | _, [] => none
  | p :: ps, c :: cs => if p == c then matchLit ps cs else none

mutual
/-- Parse one JSON value (leading whitespace skipped here). -/
def parseVal : Nat → List Char → Option (Json × List Char)
  | 0, _ => none
  | fuel + 1, s =>
    match skipJsonWs s with
    | [] => none
    | c :: rest =>
      if c == '\x7b' then parseMembersStart fuel rest
      else if c == '[' then parseElemsStart fuel rest
      else if c == '"' then
        match parseJStr rest with
        | some (body, r) => some (Json.str (String.mk body), r)
        | none => none
      else if c == 't' then
        match matchLit ['r', 'u', 'e'] rest with
        | some r => some (Json.bool true, r)
        | none => none
      else if c == 'f' then
        match matchLit ['a', 'l', 's', 'e'] rest with
        | some r => some (Json.bool false, r)
        | none => none
      else if c == 'n' then
        match matchLit ['u', 'l', 'l'] rest with
        | some r => some (Json.null, r)
        | none => none
      else if c == 'N' then
        match matchLit ['a', 'N'] rest with
        | some r => some (Json.nan, r)
        | none => none
      else if c == 'I' then
        match matchLit ['n', 'f', 'i', 'n', 'i', 't', 'y'] rest with
        | some r => some (Json.inf false, r)
        | none => none
      else if c == '-' then
        match rest with
        | 'I' :: r0 =>
          match matchLit ['n', 'f', 'i', 'n', 'i', 't', 'y'] r0 with
          | some r => some (Json.inf true, r)
          | none => none
        | _ => parseNumBody true rest
      else parseNumBody false (c :: rest)

/-- Parse an object after the `{`: empty object or first member. -/
def parseMembersStart : Nat → List Char → Option (Json × List Char)
  | 0, _ => none
  | fuel + 1, s =>
    match skipJsonWs s with
    | '\x7d' :: rest => some (Json.obj [], rest)
    | s' => parseMembers fuel s' []

/-- Parse the members of an object, accumulating the fields in text order. -/
def parseMembers : Nat → List Char → List (String × Json) → Option (Json × List Char)
  | 0, _, _ => none
  | fuel + 1, s, acc =>
    match skipJsonWs s with
    | '"' :: rest =>
      match parseJStr rest with
      | none => none
      | some (key, r1) =>
        match skipJsonWs r1 with
        | ':' :: r2 =>
          match parseVal fuel r2 with
          | none => none
          | some (v, r3) =>
            let acc' := acc ++ [(String.mk key, v)]
            match skipJsonWs r3 with
            | ',' :: r4 => parseMembers fuel r4 acc'
            | '\x7d' :: r4 => some (Json.obj acc', r4)
            | _ => none
        | _ => none
    | _ => none

/-- Parse an array after the `[`: empty array or first element. -/
def parseElemsStart : Nat → List Char → Option (Json × List Char)
  | 0, _ => none
  | fuel + 1, s =>
    match skipJsonWs s with
    | ']' :: rest => some (Json.arr [], rest)
    | s' => parseElems fuel s' []

/-- Parse the elements of an array, accumulating in order. -/
def parseElems : Nat → List Char → List Json → Option (Json × List Char)
  | 0, _, _ => none
  | fuel + 1, s, acc =>
    match parseVal fuel s with
    | none => none
    | some (v, r1) =>
      let acc' := acc ++ [v]
      match skipJsonWs r1 with
      | ',' :: r2 => parseElems fuel r2 acc'
      | ']' :: r2 => some (Json.arr acc', r2)
      | _ => none
end

/-- Embedding of `json.loads` on a `str`: parse one value, then require only
whitespace to follow ("Extra data" otherwise).  `none` stands for a raised
`json.JSONDecodeError`. -/
def jsonParse (raw : String) : Option Json :=
  let cs := raw.data
  match parseVal (cs.length + 1) cs with
  | some (j, rest) =>
    match skipJsonWs rest with
    | [] => some j
    | _ => none
  | none => none

/-! ### The regex scans of the recovery tiers

`resume_scorer.py` uses four patterns via `re.findall`:
tier 2: `\{\s*"criterion":\s*"([^"]*)"\s*,\s*"score":\s*(\d+)\s*,\s*"justification":\s*"([^"]*?)"\s*\}`;
tier 3: `"criterion":\s*"([^"]*)"` and `"score":\s*(\d+)`;
tier 4: `(\d+)`.
All are deterministic: each `\s*`, `\d+`, `[^"]*` run is followed by a
character outside its class, and the non-greedy `[^"]*?` before `"` captures
the same run as the greedy form, so a single left-to-right pass is exact. -/

/-- Python `\s` restricted to ASCII (the model's character universe). -/
def isPyWs (c : Char) : Bool :=
  c == ' ' || c == '\t' || c == '\n' || c == '\r' || c == '\x0b' || c == '\x0c'

/-- Drop a (greedy) `\s*` run. -/
def dropPyWs : List Char → List Char
  | c :: cs => if isPyWs c then dropPyWs cs else c :: cs
  | [] => []

/-- Match `"([^"]*)"` with the opening quote already consumed: capture up to
the next quote, consuming it; fail if the input ends first. -/
def captureNonQuote (s : List Char) : Option (List Char × List Char) :=
  let cap := s.takeWhile (fun c => c != '"')
  match s.dropWhile (fun c => c != '"') with
  | '"' :: r => some (cap, r)
  | _ => none

/-- Match `\d+` at the head: at least one ASCII digit, greedily. -/
def captureDigits (s : List Char) : Option (Nat × List Char) :=
  match takeDigs s with
  | ([], _) => none
  | (ds, r) => some (digsToNat ds, r)

/-- Try the tier-2 triple pattern at the current position. -/
def tier2MatchAt (s : List Char) : Option ((String × Int × String) × List Char) := do
  let s ← match s with
          | '\x7b' :: r => some r
          | _ => none
  let s := dropPyWs s
  let s ← matchLit "\"criterion\":".data s
  let s := dropPyWs s
  let s ← match s with
          | '"' :: r => some r
          | _ => none
  let (crit, s) ← captureNonQuote s
  let s := dropPyWs s
  let s ← match s with
          | ',' :: r => some r
          | _ => none
  let s := dropPyWs s
  let s ← matchLit "\"score\":".data s
  let s := dropPyWs s
  let (sc, s) ← captureDigits s
  let s := dropPyWs s
  let s ← match s with
          | ',' :: r => some r
          | _ => none
  let s := dropPyWs s
  let s ← matchLit "\"justification\":".data s
  let s := dropPyWs s
  let s ← match s with
          | '"' :: r => some r
          | _ => none
  let (just, s) ← captureNonQuote s
  let s := dropPyWs s
  let s ← match s with
          | '\x7d' :: r => some r
          | _ => none
  pure ((String.mk crit, ((sc : Nat) : Int), String.mk just), s)

/-- Try the tier-3 pattern `"criterion":\s*"([^"]*)"` at the current position. -/
def criterionMatchAt (s : List Char) : Option (String × List Char) := do
  let s ← matchLit "\"criterion\":".data s
  let s := dropPyWs s
  let s ← match s with
          | '"' :: r => some r
          | _ => none
  let (crit, s) ← captureNonQuote s
  pure (String.mk crit, s)

/-- Try the tier-3 pattern `"score":\s*(\d+)` at the current position. -/
def scoreMatchAt (s : List Char) : Option (Int × List Char) := do
  let s ← matchLit "\"score\":".data s
  let s := dropPyWs s
  let (sc, s) ← captureDigits s
  pure (((sc : Nat) : Int), s)

/-- Try the tier-4 pattern `(\d+)` at the current position. -/
def numberMatchAt (s : List Char) : Option (Int × List Char) := do
  let (n, s) ← captureDigits s
  pure (((n : Nat) : Int), s)

/-- Embedding of `re.findall`: scan left to right; at each position try the
pattern, on success record the capture and continue after the match
(non-overlapping), otherwise advance one character.  Every pattern here
consumes at least one character, so `length + 1` fuel suffices. -/
def scanAllF (matchAt : List Char → Option (α × List Char)) :
    Nat → List Char → List α
  | 0, _ => []
  | _ + 1, [] => []
  | fuel + 1, c :: rest =>
    match matchAt (c :: rest) with
    | some (a, r) => a :: scanAllF matchAt fuel r
    | none => scanAllF matchAt fuel rest

/-- Run a findall scan over a string with adequate fuel. -/
def scanAll (matchAt : List Char → Option (α × List Char)) (raw : String) : List α :=
  scanAllF matchAt (raw.data.length + 1) raw.data

/-- All tier-2 triples in the raw text (`score_pattern.findall(result_str)`,
resume_scorer.py line 71-72). -/
def tier2Matches (raw : String) : List (String × Int × String) :=
  scanAll tier2MatchAt raw

/-- All tier-3 criterion captures (`criterion_pattern.findall`, line 99-100). -/
def criterionMatches (raw : String) : List String :=
  scanAll criterionMatchAt raw

/-- All tier-3 score captures (`score_pattern.findall`, line 102-103). -/
def scoreMatches (raw : String) : List Int :=
  scanAll scoreMatchAt raw

/-- All integer literals in the raw text (`number_pattern.findall`, line
122-123). -/
def numberMatches (raw : String) : List Int :=
  scanAll numberMatchAt raw

/-! ### The tiered recovery (resume_scorer.py lines 59-147) -/

/-- Which recovery branch produced `result_dict`: the direct `json.loads`
(tier 1), the full-triple regex reconstruction (tier 2), the separate
criterion/score pairing (tier 3), the numeric scavenging (tier 4), or the
final empty fallback of line 147. -/
inductive Tier where
  | direct
  | fullTriples
  | separateFields
  | numeric
  | empty
deriving DecidableEq

/-- Build the `{"scores": [...]}` dictionary the recovery tiers reconstruct. -/
def scoresJson (objs : List Json) : Json :=
  Json.obj [("scores", Json.arr objs)]

/-- One reconstructed score object (`clean_object` of lines 88-92 and its
tier-3/4 analogues). -/
def scoreObj (c : String) (s : Int) (j : String) : Json :=
  Json.obj [("criterion", Json.str c), ("score", jint s), ("justification", Json.str j)]

/-- Tier 2's duplicate-criterion filter (lines 76-93): walk the matches in
order, keeping a triple only when its criterion was not seen before. -/
def tier2Dedup (seen : List String) : List (String × Int × String) → List (String × Int × String)
  | [] => []
  | (c, s, j) :: rest =>
    if seen.contains c then tier2Dedup seen rest
    else (c, s, j) :: tier2Dedup (c :: seen) rest

/-- Tier 3's index pairing (lines 107-118): zip the two capture lists up to
the shorter one, with the fixed partial-recovery justification. -/
def tier3Objs (raw : String) : List Json :=
  (((criterionMatches raw).zip (scoreMatches raw)).enum).map
    (fun p => scoreObj p.2.1 p.2.2
      ("Recovered from partial response (item " ++ toString (p.1 + 1) ++ ")"))

/-- Tier 4's numeric pairing (lines 127-141): zip the found numbers with the
canonical criteria, clamping values above 5 down to 5 (no lower clamp is
needed there: `\d+` is non-negative). -/
def tier4Objs (raw : String) (criteria : List String) : List Json :=
  (((numberMatches raw).zip criteria)).map
    (fun p => scoreObj p.2 (if p.1 > 5 then 5 else p.1)
      "Extracted from numeric values in response")

/-- The recovery waterfall producing `result_dict` (lines 59-147), tagged
with the branch that produced it. -/
def recoverDictT (raw : String) (criteria : List String) : Json × Tier :=
  match jsonParse raw with
  | some j => (j, Tier.direct)
  | none =>
    if !(tier2Matches raw).isEmpty then
      (scoresJson ((tier2Dedup [] (tier2Matches raw)).map
        (fun m => scoreObj m.1 m.2.1 m.2.2)), Tier.fullTriples)
    else if !(criterionMatches raw).isEmpty || !(scoreMatches raw).isEmpty then
      (scoresJson (tier3Objs raw), Tier.separateFields)
    else if !(numberMatches raw).isEmpty && criteria.length > 0 then
      (scoresJson (tier4Objs raw criteria), Tier.numeric)
    else
      (scoresJson [], Tier.empty)

/-- The recovered `result_dict`, forgetting the branch tag. -/
def recoverDict (raw : String) (criteria : List String) : Json :=
  (recoverDictT raw criteria).1

/-! ### Normalization (resume_scorer.py lines 149-189)

The loop of lines 159-172 runs over Python values of arbitrary shape, so the
dynamic-typing behaviour is part of the embedding: `isinstance(x, (int,
float))` counts `bool` in; `int()` of `nan`/`inf` raises; `scores[criterion]`
with a `list`/`dict` key raises (unhashable); `'criterion' in x` raises for
non-container `x`.  A raised exception is an `Except.error` and is caught by
the handler of lines 184-189. -/

/-- Python's `isinstance(x, (int, float))` on a decoded value (`bool` is a
subclass of `int`; `nan` and infinities are floats). -/
def isNumLike : Json → Bool
  | Json.num _ _ => true
  | Json.bool _ => true
  | Json.nan => true
  | Json.inf _ => true
  | _ => false

/-- Python's `x < 0` for a numeric decoded value (`nan` compares false). -/
def numLt0 : Json → Bool
  | Json.num n _ => n < 0
  | Json.bool _ => false
  | Json.nan => false
  | Json.inf neg => neg
  | _ => false

/-- Python's `x > 5` for a numeric decoded value (`nan` compares false). -/
def numGt5 : Json → Bool
  | Json.num n d => 5 * (d : Int) < n
  | Json.bool _ => false
  | Json.nan => false
  | Json.inf neg => !neg
  | _ => false

/-- Python's `int(x)` on a numeric value: truncation toward zero; raises
(`.error`) on `nan` and infinities. -/
def pyIntOf : Json → Except Unit Int
  | Json.num n d => Except.ok (n.tdiv (d : Int))
  | Json.bool b => Except.ok (if b then 1 else 0)
  | _ => Except.error ()

/-- Whether a decoded value may be a Python dict key (lists and dicts are
unhashable and raise on use as a key). -/
def pyHashable : Json → Bool
  | Json.arr _ => false
  | Json.obj _ => false
  | _ => true

/-- Key equality used by the scores dict: numbers compare by value, `bool`
cross-compares with numbers (`True == 1`), `nan` equals nothing (fresh float
objects), strings compare by content.  Lists/dicts never reach here (they
are rejected as unhashable first). -/
def pyEqKey : Json → Json → Bool
  | Json.null, Json.null => true
  | Json.bool a, Json.bool b => a == b
  | Json.bool a, Json.num n d => (if a then 1 else 0) * (d : Int) == n
  | Json.num n d, Json.bool b => (if b then 1 else 0) * (d : Int) == n
  | Json.num n d, Json.num n' d' => n * (d' : Int) == n' * (d : Int)
  | Json.inf a, Json.inf b => a == b
  | Json.str a, Json.str b => a == b
  | _, _ => false

/-- Python dict assignment `scores[k] = v`: overwrite the value at the
first (only) entry whose key equals `k`, keeping its position and stored
key; append at the end otherwise. -/
def pyInsert : List (Json × Int) → Json → Int → List (Json × Int)
  | [], k, v => [(k, v)]
  | (k', v') :: rest, k, v =>
    if pyEqKey k' k then (k', v) :: rest
    else (k', v') :: pyInsert rest k v

/-- Python dict lookup / membership on the scores dict. -/
def pyLookup : List (Json × Int) → Json → Option Int
  | [], _ => none
  | (k', v') :: rest, k => if pyEqKey k' k then some v' else pyLookup rest k

/-- Substring test (Python's `in` on strings). -/
def hasSubstr (pat : List Char) : List Char → Bool
  | [] => (matchLit pat []).isSome
  | c :: rest => (matchLit pat (c :: rest)).isSome || hasSubstr pat rest

/-- The clamp of line 170: `max(0, min(5, ...))`. -/
def clampInt (t : Int) : Int := max 0 (min 5 t)

/-- Process one `score_obj` of the loop body (lines 159-172) against the
accumulated scores dict.  Non-dict items reproduce Python's duck typing:
`all(k in score_obj for k in ('criterion', 'score'))` is a key test on
dicts, a substring test on strings, an element test on lists, and a raised
`TypeError` on anything else; when it succeeds on a non-dict, the
`score_obj['criterion']` subscript raises. -/
def processItem (d : List (Json × Int)) : Json → Except Unit (List (Json × Int))
  | Json.obj fields =>
    if pyHasKey fields "criterion" && pyHasKey fields "score" then
      let c := pyGetD fields "criterion" Json.null
      let s := pyGetD fields "score" Json.null
      if !pyHashable c then Except.error ()
      else if !isNumLike s || numLt0 s || numGt5 s then
        match (if isNumLike s then pyIntOf s else Except.ok 0) with
        | Except.error e => Except.error e
        | Except.ok t => Except.ok (pyInsert d c (clampInt t))
      else
        match pyIntOf s with
        | Except.error e => Except.error e
        | Except.ok t => Except.ok (pyInsert d c t)
    else Except.ok d
  | Json.str s =>
    if hasSubstr "criterion".data s.data && hasSubstr "score".data s.data then
      Except.error ()
    else Except.ok d
  | Json.arr l =>
    let hasStr (t : String) : Bool :=
      l.any (fun j => match j with | Json.str u => u == t | _ => false)
    if hasStr "criterion" && hasStr "score" then Except.error ()
    else Except.ok d
  | _ => Except.error ()

/-- The whole loop of lines 159-172 over `result_dict['scores']`.  Iterating
a string yields single characters (which never contain the key words, so
they are all skipped); iterating a dict yields its keys; iterating a number
or `None` raises. -/
def processScores : Json → Except Unit (List (Json × Int))
  | Json.arr items => items.foldlM processItem []
  | Json.str _ => Except.ok []
  | Json.obj fields =>
    if (pyKeys fields).any
        (fun k => hasSubstr "criterion".data k.data && hasSubstr "score".data k.data) then
      Except.error ()
    else Except.ok []
  | _ => Except.error ()

/-- The test of line 153: `isinstance(result_dict, dict) and 'scores' in
result_dict`. -/
def hasScoresKey : Json → Bool
  | Json.obj fields => pyHasKey fields "scores"
  | _ => false

/-- The check of lines 153-156: a non-dict result or one without a
`scores` key is replaced by `{"scores": []}`. -/
def ensureShape (j : Json) : Json :=
  if hasScoresKey j then j else scoresJson []

/-- The `scores` field of the (shape-checked) `result_dict`. -/
def scoresField (j : Json) : Json :=
  match j with
  | Json.obj fields => pyGetD fields "scores" Json.null
  | _ => Json.null

/-- The scores dict produced by the loop of lines 159-172 on the recovered
`result_dict`, or the exception it raised. -/
def recoveredScores (raw : String) (criteria : List String) : Except Unit (List (Json × Int)) :=
  processScores (scoresField (ensureShape (recoverDict raw criteria)))

/-- The reconciliation of lines 174-179: every canonical criterion missing
from the scores dict is appended with score 0, in list order; present
entries are untouched. -/
def reconcile (scores : List (Json × Int)) (criteria : List String) : List (Json × Int) :=
  criteria.foldl
    (fun d c => if (pyLookup d (Json.str c)).isSome then d else pyInsert d (Json.str c) 0)
    scores

/-- The response sanitizer: the parse / recover / normalize / reconcile
pipeline of `score_resume_against_criteria` (resume_scorer.py lines 48-189)
applied to the raw crew response.  The handler of lines 184-189 turns any
exception from the processing loop into the all-zero default. -/
def sanitize (raw : String) (criteria : List String) : List (Json × Int) :=
  match recoveredScores raw criteria with
  | Except.ok s => reconcile s criteria
  | Except.error _ => criteria.map (fun c => (Json.str c, 0))

/-! ### Name extraction (name_extractor.py lines 49-155)

The deterministic part of `extract_candidate_name`: parsing and validating
the crew's raw response string against the caller-supplied filename. -/

/-- Python `str.strip()` (ASCII whitespace model). -/
def pyStrip (s : String) : String :=
  String.mk (((s.data.dropWhile isPyWs).reverse.dropWhile isPyWs).reverse)

/-- Python `str.lower()` (ASCII model). -/
def pyLower (s : String) : String :=
  String.mk (s.data.map Char.toLower)

/-- Python `str.split()` with no argument: split on whitespace runs,
dropping leading/trailing whitespace.  Fuel-based (`length + 1` suffices). -/
def pySplitF : Nat → List Char → List (List Char)
  | 0, _ => []
  | _ + 1, [] => []
  | fuel + 1, c :: rest =>
    if isPyWs c then pySplitF fuel rest
    else
      (c :: rest).takeWhile (fun x => !isPyWs x) ::
        pySplitF fuel ((c :: rest).dropWhile (fun x => !isPyWs x))

/-- Python `name.split()`. -/
def pySplit (s : String) : List String :=
  (pySplitF (s.data.length + 1) s.data).map String.mk

/-- The rejected example/placeholder set of lines 72-84. -/
def exampleNames : List String :=
  ["emily chen", "john smith", "john doe", "jane doe", "emily j. miller",
   "james wilson", "sarah johnson", "[actual extracted name]", "your name",
   "candidate name", "resume"]

/-- The placeholder marker substrings of lines 96-98, tested against the
lowercased name. -/
def placeholderMarkers : List String :=
  ["[", "]", "\x7b", "\x7d", "<", ">", "example"]

/-- Whether the lowercased name contains any placeholder marker. -/
def containsMarker (lowName : String) : Bool :=
  placeholderMarkers.any (fun m => hasSubstr m.data lowName.data)

/-- The `file_name` argument as the Python value put in the result dict
(`None` when the caller passed none). -/
def jsonOfOpt : Option String → Json
  | none => Json.null
  | some s => Json.str s

/-- Truthiness of the `file_name` argument (line 132's `and file_name`). -/
def truthyOpt : Option String → Bool
  | none => false
  | some s => !(s == "")

/-- Python truthiness of a decoded value (line 146's `source or ...`). -/
def pyTruthy : Json → Bool
  | Json.null => false
  | Json.bool b => b
  | Json.num n _ => !(n == 0)
  | Json.nan => true
  | Json.inf _ => true
  | Json.str s => !(s == "")
  | Json.arr l => !l.isEmpty
  | Json.obj f => !f.isEmpty

/-- Python `x < k` for a decoded `x` against an int (line 132's
`confidence < 70`): numeric values compare by value (`nan` false, `bool` as
0/1); anything else raises `TypeError`. -/
def pyLtIntJ (j : Json) (k : Int) : Except Unit Bool :=
  match j with
  | Json.num n d => Except.ok (n < k * (d : Int))
  | Json.bool b => Except.ok ((if b then (1 : Int) else 0) < k)
  | Json.nan => Except.ok false
  | Json.inf neg => Except.ok neg
  | _ => Except.error ()

/-- The result dict of `extract_candidate_name`: each field holds the Python
value actually returned (on the success path `confidence` and `source` are
whatever the model supplied). -/
structure NameResult where
  name : Json
  confidence : Json
  source : Json

/-- Which branch of the decision chain produced the result. -/
inductive NRoute where
  | forbidden
  | emptyName
  | exampleName
  | placeholder
  | invalidStructure
  | tooLong
  | fallback
  | success
  | parseErr
  | errPath
deriving DecidableEq

/-- A rejection result: the caller's filename, confidence 0, and the given
source string (the shape shared by every rejection branch). -/
def rejectWith (fileName : Option String) (src : String) : NameResult :=
  ⟨jsonOfOpt fileName, jint 0, Json.str src⟩

/-- Embedding of `extract_candidate_name` after the crew call (lines
49-155), applied to the raw response string and the caller's filename,
tagged with the branch taken.  The `except Exception` handler of lines
153-155 catches the `AttributeError`s (`.get` on a non-dict, `.strip()` on
a non-string) and the `TypeError` of an unorderable confidence; its
`f"error: ..."` source is modelled with an abbreviated message. -/
def extract_candidate_nameT (resultStr : String) (fileName : Option String) :
    NameResult × NRoute :=
  match jsonParse resultStr with
  | none => (rejectWith fileName "parse_error", NRoute.parseErr)
  | some j =>
    match j with
    | Json.obj fields =>
      match pyGetD fields "name" (Json.str "") with
      | Json.str rawName =>
        if pyLower (pyStrip rawName) == "emily chen" then
          (rejectWith fileName "forbidden_example_name", NRoute.forbidden)
        else if pyStrip rawName == "" then
          (rejectWith fileName "empty_result", NRoute.emptyName)
        else if exampleNames.contains (pyLower (pyStrip rawName)) then
          (rejectWith fileName "example_name_rejected", NRoute.exampleName)
        else if containsMarker (pyLower (pyStrip rawName)) then
          (rejectWith fileName "placeholder_rejected", NRoute.placeholder)
        else if (pySplit (pyStrip rawName)).length < 2 then
          (rejectWith fileName "invalid_structure", NRoute.invalidStructure)
        else if (pyStrip rawName).length > 50 then
          (rejectWith fileName "name_too_long", NRoute.tooLong)
        else
          match pyLtIntJ (pyGetD fields "confidence" (jint 0)) 70 with
          | Except.error _ =>
            (rejectWith fileName "error: unorderable confidence", NRoute.errPath)
          | Except.ok lt =>
            if lt && truthyOpt fileName then
              (⟨jsonOfOpt fileName, jint 100, Json.str "filename_fallback"⟩, NRoute.fallback)
            else
              (⟨Json.str (pyStrip rawName), pyGetD fields "confidence" (jint 0),
                if pyTruthy (pyGetD fields "source" (Json.str "")) then
                  pyGetD fields "source" (Json.str "")
                else Json.str "content_extraction"⟩, NRoute.success)
      | _ => (rejectWith fileName "error: name has no strip", NRoute.errPath)
    | _ => (rejectWith fileName "error: result has no get", NRoute.errPath)

/-- The result dict of `extract_candidate_name`, forgetting the branch tag. -/
def extract_candidate_name (resultStr : String) (fileName : Option String) : NameResult :=
  (extract_candidate_nameT resultStr fileName).1

/-! ### Criteria extraction (criteria_extractor.py lines 46-92) -/

/-- Embedding of `extract_criteria_from_text` after the crew call: strict
JSON parse, list check, and the string/non-empty filter.  An `.error` is a
raised `ValueError` (the inner raises of lines 62 and 88 are caught by the
outer handler of lines 90-92 and re-raised wrapped; messages abbreviated). -/
def extract_criteria_from_text (resultStr : String) : Except String (List String) :=
  match jsonParse resultStr with
  | none =>
    Except.error "Failed to extract criteria: Failed to parse criteria extraction result"
  | some j =>
    match j with
    | Json.arr items =>
      Except.ok (items.filterMap (fun x =>
        match x with
        | Json.str s => if pyStrip s == "" then none else some s
        | _ => none))
    | _ =>
      Except.error "Failed to extract criteria: invalid format (expected list)"

/-! ### The retry decorator (crew_manager.py lines 19-41)

The decorated operation is modelled as a function from the attempt index to
that invocation's outcome (`.error` = the call raised).  The run returns the
final outcome, the number of invocations made, and the list of sleep
durations in order (the `asyncio.sleep(delay * (attempt + 1))` of line 37). -/

/-- Outcome of running the wrapper: a returned value, a re-raised error, or
Python's implicit `None` when `max_retries` is 0 and the loop body never
runs. -/
inductive RetryResult (ε α : Type) where
  | value (a : α)
  | raised (e : ε)
  | noneReturn
deriving DecidableEq

/-- The `for attempt in range(max_retries)` loop, from `attempt` with the
given number of iterations remaining. -/
def retryGo (f : Nat → Except ε α) (delay maxRetries : Nat) :
    Nat → Nat → RetryResult ε α × Nat × List Nat
  | _, 0 => (RetryResult.noneReturn, 0, [])
  | attempt, r + 1 =>
    match f attempt with
    | Except.ok a => (RetryResult.value a, 1, [])
    | Except.error e =>
      if attempt = maxRetries - 1 then (RetryResult.raised e, 1, [])
      else
        let res := retryGo f delay maxRetries (attempt + 1) r
        (res.1, res.2.1 + 1, delay * (attempt + 1) :: res.2.2)

/-- Embedding of a call through the `async_retry(max_retries, delay)`
wrapper: result, number of invocations of the wrapped operation, and the
sleeps between attempts. -/
def async_retry (maxRetries delay : Nat) (f : Nat → Except ε α) :
    RetryResult ε α × Nat × List Nat :=
  retryGo f delay maxRetries 0 maxRetries

/-! ## Helper lemmas -/

/-- Assigning a fresh key appends the pair at the end. -/
lemma pyInsert_eq_append {d : List (Json × Int)} {k : Json} {v : Int}
    (h : pyLookup d k = none) : pyInsert d k v = d ++ [(k, v)] := by
  induction d with
  | nil => rfl
  | cons p rest ih =>
    obtain ⟨k', v'⟩ := p
    simp only [pyLookup] at h
    by_cases hk : pyEqKey k' k
    · simp [hk] at h
    · simp only [pyInsert]
      rw [if_neg (by simpa using hk)]
      rw [ih (by simpa [hk] using h)]
      simp

/-- Values inserted by `pyInsert` satisfy any predicate all existing values
and the new value satisfy. -/
lemma pyInsert_val_bound (P : Int → Prop) {d : List (Json × Int)} {k : Json} {v : Int}
    (hd : ∀ p ∈ d, P p.2) (hv : P v) : ∀ p ∈ pyInsert d k v, P p.2 := by
  induction d with
  | nil => simpa [pyInsert] using hv
  | cons q rest ih =>
    obtain ⟨k', v'⟩ := q
    simp only [pyInsert]
    by_cases hk : pyEqKey k' k
    · rw [if_pos (by simpa using hk)]
      intro p hp
      rcases List.mem_cons.mp hp with h | h
      · simpa [h] using hv
      · exact hd p (List.mem_cons_of_mem _ h)
    · rw [if_neg (by simpa using hk)]
      intro p hp
      rcases List.mem_cons.mp hp with h | h
      · exact hd p (by simp [h])
      · exact ih (fun q hq => hd q (List.mem_cons_of_mem _ hq)) p h

/-- Truncation toward zero of a non-negative decimal bounded by 5 lies in
`[0, 5]`. -/
lemma tdiv_bound {n : Int} {d : Nat} (h0 : ¬ n < 0) (h5 : ¬ 5 * (d : Int) < n) :
    0 ≤ n.tdiv (d : Int) ∧ n.tdiv (d : Int) ≤ 5 := by
  obtain ⟨m, rfl⟩ := Int.eq_ofNat_of_zero_le (by omega : (0 : Int) ≤ n)
  have hmd : (m : Int) ≤ 5 * (d : Int) := by omega
  have hmd' : m ≤ 5 * d := by exact_mod_cast hmd
  have htd : ((m : Int)).tdiv ((d : Nat) : Int) = ((m / d : Nat) : Int) := rfl
  rw [htd]
  refine ⟨by positivity, ?_⟩
  rcases Nat.eq_zero_or_pos d with hd | hd
  · simp [hd]
  · have hq : m / d ≤ 5 * d / d := Nat.div_le_div_right hmd'
    rw [Nat.mul_div_cancel _ hd] at hq
    exact_mod_cast hq

/-- Every value a successful `processItem` step leaves in the dict is in
`[0, 5]`, provided the incoming dict's values are. -/
lemma processItem_bound {d d' : List (Json × Int)} {item : Json}
    (hd : ∀ p ∈ d, 0 ≤ p.2 ∧ p.2 ≤ 5) (h : processItem d item = Except.ok d') :
    ∀ p ∈ d', 0 ≤ p.2 ∧ p.2 ≤ 5 := by
  cases item with
  | obj fields =>
    simp only [processItem] at h
    by_cases hkeys : pyHasKey fields "criterion" && pyHasKey fields "score"
    · rw [if_pos hkeys] at h
      generalize pyGetD fields "criterion" Json.null = c at h
      generalize pyGetD fields "score" Json.null = s at h
      by_cases hhash : pyHashable c
      · rw [if_neg (by simp [hhash])] at h
        by_cases hval : !isNumLike s || numLt0 s || numGt5 s
        · rw [if_pos hval] at h
          rcases hok : (if isNumLike s then pyIntOf s else Except.ok 0) with e | t
          · rw [hok] at h; cases h
          · rw [hok] at h
            simp only [Except.ok.injEq] at h
            subst h
            exact pyInsert_val_bound (fun x => 0 ≤ x ∧ x ≤ 5) hd (by simp only [clampInt]; omega)
        · rw [if_neg hval] at h
          simp only [Bool.or_eq_true, Bool.not_eq_true', not_or] at hval
          obtain ⟨⟨hnum, hlt⟩, hgt⟩ := hval
          rcases hok : pyIntOf s with e | t
          · rw [hok] at h; cases h
          · rw [hok] at h
            simp only [Except.ok.injEq] at h
            subst h
            refine pyInsert_val_bound (fun x => 0 ≤ x ∧ x ≤ 5) hd ?_
            cases s with
            | num n dd =>
              simp only [numLt0] at hlt
              simp only [numGt5] at hgt
              simp only [pyIntOf, Except.ok.injEq] at hok
              subst hok
              simp only [numLt0, decide_eq_true_eq] at hlt
              simp only [numGt5, decide_eq_true_eq] at hgt
              exact tdiv_bound hlt hgt
            | bool b =>
              simp only [pyIntOf, Except.ok.injEq] at hok
              subst hok
              by_cases hb : b <;> simp [hb]
            | nan => simp [pyIntOf] at hok
            | inf neg => simp [pyIntOf] at hok
            | null => simp [isNumLike] at hnum
            | str _ => simp [isNumLike] at hnum
            | arr _ => simp [isNumLike] at hnum
            | obj _ => simp [isNumLike] at hnum
      · rw [if_pos (by simp [hhash])] at h
        cases h
    · rw [if_neg hkeys] at h
      simp only [Except.ok.injEq] at h
      subst h
      exact hd
  | str s =>
    simp only [processItem] at h
    by_cases hc : hasSubstr "criterion".data s.data && hasSubstr "score".data s.data
    · rw [if_pos hc] at h; cases h
    · rw [if_neg hc] at h
      simp only [Except.ok.injEq] at h
      subst h
      exact hd
  | arr l =>
    simp only [processItem] at h
    split at h
    · cases h
    · simp only [Except.ok.injEq] at h
      subst h
      exact hd
  | null => cases h
  | bool b => cases h
  | num n dd => cases h
  | nan => cases h
  | inf neg => cases h

/-- The loop of lines 159-172 only ever stores values in `[0, 5]`. -/
lemma foldl_processItem_bound :
    ∀ (items : List Json) (d s : List (Json × Int)),
      (∀ p ∈ d, 0 ≤ p.2 ∧ p.2 ≤ 5) →
      List.foldlM processItem d items = Except.ok s →
      ∀ p ∈ s, 0 ≤ p.2 ∧ p.2 ≤ 5 := by
  intro items
  induction items with
  | nil =>
    intro d s hd h
    simp only [List.foldlM_nil] at h
    cases h
    exact hd
  | cons item rest ih =>
    intro d s hd h
    rw [List.foldlM_cons] at h
    rcases hstep : processItem d item with e | d'
    · rw [hstep] at h; cases h
    · rw [hstep] at h
      exact ih d' s (processItem_bound hd hstep) h

/-- Whatever shape `result_dict['scores']` has, a non-raising pass of the
processing loop yields only values in `[0, 5]`. -/
lemma processScores_bound {j : Json} {s : List (Json × Int)}
    (h : processScores j = Except.ok s) : ∀ p ∈ s, 0 ≤ p.2 ∧ p.2 ≤ 5 := by
  cases j with
  | arr items => exact foldl_processItem_bound items [] s (by simp) h
  | str t =>
    simp only [processScores, Except.ok.injEq] at h
    subst h; simp
  | obj fields =>
    simp only [processScores] at h
    split at h
    · cases h
    · simp only [Except.ok.injEq] at h
      subst h; simp
  | null => cases h
  | bool b => cases h
  | num n dd => cases h
  | nan => cases h
  | inf neg => cases h

/-- Reconciliation preserves a value bound: it only adds zeros. -/
lemma reconcile_bound (P : Int → Prop) (hP : P 0) :
    ∀ (criteria : List String) (d : List (Json × Int)),
      (∀ p ∈ d, P p.2) → ∀ p ∈ reconcile d criteria, P p.2 := by
  intro criteria
  induction criteria with
  | nil => intro d hd; simpa [reconcile] using hd
  | cons c rest ih =>
    intro d hd
    simp only [reconcile, List.foldl_cons]
    by_cases hc : (pyLookup d (Json.str c)).isSome
    · rw [if_pos hc]
      exact ih d hd
    · rw [if_neg hc]
      exact ih _ (pyInsert_val_bound P hd hP)

/-- Membership in the dict is preserved by reconciliation (present entries
are never modified, missing criteria are appended). -/
lemma reconcile_mem_of_mem :
    ∀ (criteria : List String) (d : List (Json × Int)) (p : Json × Int),
      p ∈ d → p ∈ reconcile d criteria := by
  intro criteria
  induction criteria with
  | nil => intro d p hp; simpa [reconcile] using hp
  | cons c rest ih =>
    intro d p hp
    simp only [reconcile, List.foldl_cons]
    by_cases hc : (pyLookup d (Json.str c)).isSome
    · rw [if_pos hc]
      exact ih d p hp
    · rw [if_neg hc]
      refine ih _ p ?_
      rw [pyInsert_eq_append (Option.not_isSome_iff_eq_none.mp hc)]
      exact List.mem_append_left _ hp

/-- Lookup misses are preserved when a differently-keyed string entry is
appended. -/
lemma pyLookup_append_ne {d : List (Json × Int)} {c c' : String} {v : Int}
    (h : pyLookup d (Json.str c) = none) (hne : c' ≠ c) :
    pyLookup (d ++ [(Json.str c', v)]) (Json.str c) = none := by
  induction d with
  | nil => simpa [pyLookup, pyEqKey] using hne
  | cons q rest ih =>
    obtain ⟨k', v'⟩ := q
    simp only [pyLookup] at h
    rw [List.cons_append]
    simp only [pyLookup]
    by_cases hk : pyEqKey k' (Json.str c)
    · rw [if_pos hk] at h
      cases h
    · rw [if_neg hk] at h
      rw [if_neg hk]
      exact ih h

/-- Every canonical criterion missing from (or zero-mapped in) the incoming
dict ends up mapped to 0 in the reconciled dict. -/
lemma reconcile_covers :
    ∀ (criteria : List String) (d : List (Json × Int)) (c : String),
      c ∈ criteria →
      (pyLookup d (Json.str c) = none ∨ (Json.str c, (0 : Int)) ∈ d) →
      (Json.str c, (0 : Int)) ∈ reconcile d criteria := by
  intro criteria
  induction criteria with
  | nil => intro d c hc; cases hc
  | cons c' rest ih =>
    intro d c hc hinv
    simp only [reconcile, List.foldl_cons]
    rcases List.mem_cons.mp hc with rfl | hcrest
    · rcases hinv with hnone | hmem
      · rw [if_neg (by simp [hnone])]
        rw [pyInsert_eq_append hnone]
        exact reconcile_mem_of_mem rest _ _ (by simp)
      · by_cases hlk : (pyLookup d (Json.str c)).isSome
        · rw [if_pos hlk]
          exact reconcile_mem_of_mem rest _ _ hmem
        · rw [if_neg hlk]
          rw [pyInsert_eq_append (Option.not_isSome_iff_eq_none.mp hlk)]
          exact reconcile_mem_of_mem rest _ _ (List.mem_append_left _ hmem)
    · by_cases hlk : (pyLookup d (Json.str c')).isSome
      · rw [if_pos hlk]
        exact ih d c hcrest hinv
      · rw [if_neg hlk]
        rcases hinv with hnone | hmem
        · by_cases hcc : c' = c
          · refine ih _ c hcrest (Or.inr ?_)
            rw [hcc, pyInsert_eq_append hnone]
            simp
          · refine ih _ c hcrest (Or.inl ?_)
            rw [pyInsert_eq_append (Option.not_isSome_iff_eq_none.mp hlk)]
            exact pyLookup_append_ne hnone hcc
        · refine ih _ c hcrest (Or.inr ?_)
          rw [pyInsert_eq_append (Option.not_isSome_iff_eq_none.mp hlk)]
          exact List.mem_append_left _ hmem

/-- Filtering tier 2's deduplicated output for a criterion already seen
yields nothing. -/
lemma tier2Dedup_filter_seen (c : String) :
    ∀ (ms : List (String × Int × String)) (seen : List String),
      seen.contains c = true →
      (tier2Dedup seen ms).filter (fun m => m.1 == c) = [] := by
  intro ms
  induction ms with
  | nil => intro seen _; rfl
  | cons m rest ih =>
    obtain ⟨c', s, j⟩ := m
    intro seen h
    simp only [tier2Dedup]
    by_cases hsn : seen.contains c'
    · rw [if_pos hsn]
      exact ih seen h
    · rw [if_neg hsn]
      have hne : (c' == c) = false :=
        beq_eq_false_iff_ne.mpr (fun hcc => hsn (by rw [hcc]; exact h))
      rw [List.filter_cons]
      simp only [hne, Bool.false_eq_true, if_false]
      exact ih (c' :: seen) (by rw [List.contains_cons, h, Bool.or_true])

/-- Filtering tier 2's deduplicated output for an unseen criterion keeps
exactly the first matching triple. -/
lemma tier2Dedup_filter_new (c : String) :
    ∀ (ms : List (String × Int × String)) (seen : List String),
      seen.contains c = false →
      (tier2Dedup seen ms).filter (fun m => m.1 == c) =
        (ms.filter (fun m => m.1 == c)).take 1 := by
  intro ms
  induction ms with
  | nil => intro seen _; rfl
  | cons m rest ih =>
    obtain ⟨c', s, j⟩ := m
    intro seen h
    simp only [tier2Dedup]
    by_cases hsn : seen.contains c'
    · rw [if_pos hsn]
      have hne : (c' == c) = false :=
        beq_eq_false_iff_ne.mpr (fun hcc => by
          rw [hcc] at hsn
          rw [hsn] at h
          cases h)
      rw [List.filter_cons]
      simp only [hne, Bool.false_eq_true, if_false]
      exact ih seen h
    · rw [if_neg hsn]
      rw [List.filter_cons, List.filter_cons]
      by_cases hcc : (c' == c) = true
      · simp only [hcc, if_true]
        have hseen : (c' :: seen).contains c = true := by
          rw [List.contains_cons, beq_iff_eq.mpr (eq_of_beq hcc).symm, Bool.true_or]
        rw [tier2Dedup_filter_seen c rest (c' :: seen) hseen]
        simp
      · simp only [hcc, Bool.false_eq_true, if_false]
        have hcontains : (c' :: seen).contains c = false := by
          rw [List.contains_cons, h, Bool.or_false]
          exact beq_eq_false_iff_ne.mpr (fun hh => hcc (beq_iff_eq.mpr hh.symm))
        exact ih (c' :: seen) hcontains

/-- Assigning a string-keyed entry makes subsequent lookup return exactly
the assigned value (the last assignment wins). -/
lemma pyLookup_pyInsert_self :
    ∀ (d : List (Json × Int)) (c : String) (v : Int),
      pyLookup (pyInsert d (Json.str c) v) (Json.str c) = some v := by
  intro d
  induction d with
  | nil =>
    intro c v
    simp [pyInsert, pyLookup, pyEqKey]
  | cons q rest ih =>
    intro c v
    obtain ⟨k', v'⟩ := q
    simp only [pyInsert]
    by_cases hk : pyEqKey k' (Json.str c)
    · rw [if_pos hk]
      simp only [pyLookup]
      rw [if_pos hk]
    · rw [if_neg hk]
      simp only [pyLookup]
      rw [if_neg hk]
      exact ih c v

/-- Unfolding one loop iteration of the retry wrapper when the attempt
succeeds. -/
lemma retryGo_ok_step {ε α : Type} (f : Nat → Except ε α) (delay maxR attempt r : Nat)
    (a : α) (hf : f attempt = Except.ok a) :
    retryGo f delay maxR attempt (r + 1) = (RetryResult.value a, 1, []) := by
  rw [retryGo, hf]

/-- Unfolding one loop iteration of the retry wrapper when the attempt
raises. -/
lemma retryGo_err_step {ε α : Type} (f : Nat → Except ε α) (delay maxR attempt r : Nat)
    (e : ε) (hf : f attempt = Except.error e) :
    retryGo f delay maxR attempt (r + 1) =
      if attempt = maxR - 1 then (RetryResult.raised e, 1, [])
      else
        ((retryGo f delay maxR (attempt + 1) r).1,
         (retryGo f delay maxR (attempt + 1) r).2.1 + 1,
         delay * (attempt + 1) :: (retryGo f delay maxR (attempt + 1) r).2.2) := by
  rw [retryGo, hf]

/-! ## The claims -/

/-- Claim C2 (counterexample): a tier-1 parse with a duplicated criterion is
not deduplicated first-wins — the raw text below parses directly, carries
`"X"` twice with scores 1 then 2, and the sanitizer returns `X ↦ 2`: the
*second* occurrence's score survives, not the first. -/
theorem c2_cex :
    jsonParse "\x7b\"scores\": [\x7b\"criterion\": \"X\", \"score\": 1\x7d, \x7b\"criterion\": \"X\", \"score\": 2\x7d]\x7d" =
      some (Json.obj [("scores", Json.arr
        [Json.obj [("criterion", Json.str "X"), ("score", jint 1)],
         Json.obj [("criterion", Json.str "X"), ("score", jint 2)]])])
    ∧ sanitize "\x7b\"scores\": [\x7b\"criterion\": \"X\", \"score\": 1\x7d, \x7b\"criterion\": \"X\", \"score\": 2\x7d]\x7d" ["X"] =
      [(Json.str "X", 2)] :=
  ⟨rfl, rfl⟩

/-- Claim C2 (amended): only tier 2's reconstruction discards duplicate
criteria keeping the first occurrence (its filtered output for any
criterion is the first matching triple); for result sets reaching the
scores dict from the other tiers, a repeated assignment to the same
criterion key overwrites the stored value, so the last occurrence's score
wins. -/
theorem c2_dedup_amended :
    (∀ (ms : List (String × Int × String)) (c : String),
      (tier2Dedup [] ms).filter (fun m => m.1 == c) =
        (ms.filter (fun m => m.1 == c)).take 1)
    ∧ (∀ (d : List (Json × Int)) (c : String) (v : Int),
      pyLookup (pyInsert d (Json.str c) v) (Json.str c) = some v) :=
  ⟨fun ms c => tier2Dedup_filter_new c ms [] rfl, pyLookup_pyInsert_self⟩

/-- Claim C3: every score value in the mapping returned by the sanitizer —
whatever tier produced it — is an integer in `[0, 5]` (out-of-range values
are clamped by `max(0, min(5, ...))`). -/
theorem c3_scores_clamped (raw : String) (criteria : List String) :
    ∀ p ∈ sanitize raw criteria, 0 ≤ p.2 ∧ p.2 ≤ 5 := by
  intro p hp
  unfold sanitize at hp
  rcases h : recoveredScores raw criteria with e | s
  · rw [h] at hp
    simp only [List.mem_map] at hp
    obtain ⟨c, _, rfl⟩ := hp
    simp
  · rw [h] at hp
    unfold recoveredScores at h
    exact reconcile_bound (fun x => 0 ≤ x ∧ x ≤ 5) (by simp) criteria s
      (processScores_bound h) p hp

/-- Claim C3 (witness): the clamp theorem applied to a concrete response
whose score 7 is clamped to 5. -/
theorem c3_witness : 0 ≤ (5 : Int) ∧ (5 : Int) ≤ 5 :=
  c3_scores_clamped "\x7b\"scores\": [\x7b\"criterion\": \"X\", \"score\": 7\x7d]\x7d" ["X", "Y"]
    (Json.str "X", 5)
    (by
      have hs : sanitize "\x7b\"scores\": [\x7b\"criterion\": \"X\", \"score\": 7\x7d]\x7d" ["X", "Y"] =
          [(Json.str "X", 5), (Json.str "Y", 0)] := rfl
      rw [hs]
      exact List.mem_cons_self _ _)

/-- Claim C9 (counterexample): a raw criteria response that is not valid
JSON makes `extract_criteria_from_text` raise a `ValueError` — it is not
resolved by any tiered recovery. -/
theorem c9_cex :
    extract_criteria_from_text "not json" =
      Except.error "Failed to extract criteria: Failed to parse criteria extraction result" :=
  rfl

/-- Claim C9 (amended): malformed agent output in criteria extraction *is*
surfaced as an error: a raw response failing strict JSON parsing — or
parsing to a non-list — raises a `ValueError` to the caller; the sanitizer's
tiered recovery is not applied. -/
theorem c9_error_amended :
    (∀ raw, jsonParse raw = none →
      extract_criteria_from_text raw =
        Except.error "Failed to extract criteria: Failed to parse criteria extraction result")
    ∧ (∀ raw j, jsonParse raw = some j → (∀ l, j ≠ Json.arr l) →
      ∃ e, extract_criteria_from_text raw = Except.error e) := by
  constructor
  · intro raw h
    simp [extract_criteria_from_text, h]
  · intro raw j h hnl
    simp only [extract_criteria_from_text, h]
    cases j with
    | arr l => exact absurd rfl (hnl l)
    | null => exact ⟨_, rfl⟩
    | bool b => exact ⟨_, rfl⟩
    | num n d => exact ⟨_, rfl⟩
    | nan => exact ⟨_, rfl⟩
    | inf neg => exact ⟨_, rfl⟩
    | str s => exact ⟨_, rfl⟩
    | obj fields => exact ⟨_, rfl⟩

/-- Claim C9 (witness): the amended theorem applied to an unparseable
response and to a parseable non-list response. -/
theorem c9_witness :
    extract_criteria_from_text "not json" =
      Except.error "Failed to extract criteria: Failed to parse criteria extraction result"
    ∧ ∃ e, extract_criteria_from_text "\"s\"" = Except.error e :=
  ⟨c9_error_amended.1 "not json" rfl,
   c9_error_amended.2 "\"s\"" (Json.str "s") rfl (fun _ h => Json.noConfusion h)⟩

/-- Claim C10: an operation wrapped with `async_retry` with at least three
attempts that fails twice and succeeds on the third invocation returns the
successful result, is invoked exactly three times, and the inter-attempt
sleeps are `delay × 1` then `delay × 2` (linear backoff). -/
theorem c10_retry {ε α : Type} (f : Nat → Except ε α) (m delay : Nat) (a : α)
    (e0 e1 : ε) (hm : 3 ≤ m) (h0 : f 0 = Except.error e0)
    (h1 : f 1 = Except.error e1) (h2 : f 2 = Except.ok a) :
    async_retry m delay f = (RetryResult.value a, 3, [delay * 1, delay * 2]) := by
  obtain ⟨k, rfl⟩ : ∃ k, m = k + 3 := ⟨m - 3, by omega⟩
  show retryGo f delay (k + 3) 0 (k + 3) = _
  rw [show k + 3 = k + 2 + 1 from rfl]
  rw [retryGo_err_step f delay (k + 2 + 1) 0 (k + 2) e0 h0]
  rw [if_neg (by omega)]
  rw [show (0 : Nat) + 1 = 1 from rfl]
  rw [show k + 2 = k + 1 + 1 from rfl]
  rw [retryGo_err_step f delay (k + 1 + 1 + 1) 1 (k + 1) e1 h1]
  rw [if_neg (by omega)]
  rw [show (1 : Nat) + 1 = 2 from rfl]
  rw [retryGo_ok_step f delay (k + 1 + 1 + 1) 2 k a h2]

/-- Claim C10 (witness): the retry theorem at a concrete operation failing
twice then succeeding, with three attempts and base delay 2. -/
theorem c10_witness :
    async_retry 3 2 (fun n => if n < 2 then Except.error () else Except.ok (42 : Nat)) =
      (RetryResult.value 42, 3, [2, 4]) :=
  c10_retry (fun n => if n < 2 then Except.error () else Except.ok (42 : Nat))
    3 2 42 () () (by omega) rfl rfl rfl

/-- Claim C1 (counterexample): on the raw text `"criterion": "X"` —
unparseable, no tier-2 triples — tier 3 runs and yields *zero*
criterion-score pairs (one criterion capture, no score capture), yet tier 4
does not execute: the branch taken is the tier-3 one, not the numeric
scavenging. -/
theorem c1_cex :
    jsonParse "\"criterion\": \"X\"" = none
    ∧ tier2Matches "\"criterion\": \"X\"" = []
    ∧ criterionMatches "\"criterion\": \"X\"" = ["X"]
    ∧ scoreMatches "\"criterion\": \"X\"" = []
    ∧ tier3Objs "\"criterion\": \"X\"" = []
    ∧ (recoverDictT "\"criterion\": \"X\"" ["X"]).2 = Tier.separateFields
    ∧ Tier.separateFields ≠ Tier.numeric :=
  ⟨rfl, rfl, rfl, rfl, rfl, rfl, by decide⟩

/-- Claim C1 (amended): when tier 1 and tier 2 both fail, tier 4 (numeric
scavenging, or its empty fallback) executes if and only if *both* of tier
3's field scans find nothing; a tier-3 run that pairs zero items because
only one scan is empty still blocks tier 4. -/
theorem c1_waterfall_amended (raw : String) (criteria : List String)
    (h1 : jsonParse raw = none) (h2 : tier2Matches raw = []) :
    ((recoverDictT raw criteria).2 = Tier.numeric ∨
      (recoverDictT raw criteria).2 = Tier.empty)
      ↔ (criterionMatches raw = [] ∧ scoreMatches raw = []) := by
  unfold recoverDictT
  rw [h1, h2]
  rcases hcm : criterionMatches raw with _ | ⟨c0, cs⟩
  · rcases hsm : scoreMatches raw with _ | ⟨s0, ss⟩
    · simp only [List.isEmpty_nil, Bool.not_true, Bool.or_self, Bool.false_eq_true,
        if_false]
      constructor
      · intro _
        constructor <;> trivial
      · intro _
        split
        · left; rfl
        · right; rfl
    · simp
  · simp

/-- Claim C1 (witness): the amended characterization at a raw text where
both scans are empty and a number exists, so tier 4 runs. -/
theorem c1_witness :
    jsonParse "score 3" = none ∧ tier2Matches "score 3" = [] ∧
    (((recoverDictT "score 3" ["X"]).2 = Tier.numeric ∨
        (recoverDictT "score 3" ["X"]).2 = Tier.empty)
      ↔ (criterionMatches "score 3" = [] ∧ scoreMatches "score 3" = [])) :=
  ⟨rfl, rfl, c1_waterfall_amended "score 3" ["X"] rfl rfl⟩

/-- Claim C4: when the processing loop returns normally, every canonical
criterion missing from the recovered scores is present in the sanitizer's
output with score 0, and every recovered entry — canonical or not — is
retained as-is. -/
theorem c4_reconciliation (raw : String) (criteria : List String)
    (s : List (Json × Int)) (h : recoveredScores raw criteria = Except.ok s) :
    (∀ c ∈ criteria, pyLookup s (Json.str c) = none →
      (Json.str c, (0 : Int)) ∈ sanitize raw criteria)
    ∧ (∀ p ∈ s, p ∈ sanitize raw criteria) := by
  have hs : sanitize raw criteria = reconcile s criteria := by
    unfold sanitize
    rw [h]
  rw [hs]
  exact ⟨fun c hc hnone => reconcile_covers criteria s c hc (Or.inl hnone),
         fun p hp => reconcile_mem_of_mem criteria s p hp⟩

/-- Claim C4 (witness): a criterion missing from an empty recovery gets 0,
and a non-canonical recovered criterion (`Z` against canon `["X"]`) is
retained. -/
theorem c4_witness :
    (Json.str "X", (0 : Int)) ∈ sanitize "junk" ["X"]
    ∧ (Json.str "Z", (4 : Int)) ∈
        sanitize "\x7b\"scores\": [\x7b\"criterion\": \"Z\", \"score\": 4\x7d]\x7d" ["X"] :=
  ⟨(c4_reconciliation "junk" ["X"] [] rfl).1 "X" (List.mem_singleton.mpr rfl) rfl,
   (c4_reconciliation "\x7b\"scores\": [\x7b\"criterion\": \"Z\", \"score\": 4\x7d]\x7d" ["X"]
      [(Json.str "Z", 4)] rfl).2 (Json.str "Z", 4) (List.mem_singleton.mpr rfl)⟩

/-- Claim C5 (counterexample): a raw text that parses as a JSON object but
lacks a `scores` field — here a single score triple — does *not* fall to
tier-2 pattern extraction (which would have matched and scored `X ↦ 3`):
the parse succeeds, the shape check replaces the result with an empty
scores object, and `X` gets 0. -/
theorem c5_cex :
    jsonParse "\x7b\"criterion\": \"X\", \"score\": 3, \"justification\": \"ok\"\x7d" =
      some (Json.obj [("criterion", Json.str "X"), ("score", jint 3),
        ("justification", Json.str "ok")])
    ∧ tier2Matches "\x7b\"criterion\": \"X\", \"score\": 3, \"justification\": \"ok\"\x7d" =
        [("X", 3, "ok")]
    ∧ (recoverDictT "\x7b\"criterion\": \"X\", \"score\": 3, \"justification\": \"ok\"\x7d" ["X"]).2 =
        Tier.direct
    ∧ sanitize "\x7b\"criterion\": \"X\", \"score\": 3, \"justification\": \"ok\"\x7d" ["X"] =
        [(Json.str "X", 0)] :=
  ⟨rfl, rfl, rfl, rfl⟩

/-- Claim C5 (amended): tier 1 "succeeds" only on an object carrying a
`scores` field, but when the raw text parses as JSON *without* such a
field, tier 2 does not execute: the branch taken is still the direct one,
the result dict is replaced by an empty scores object, and the sanitizer
returns the reconciliation of an empty score set. -/
theorem c5_direct_amended (raw : String) (criteria : List String) (j : Json)
    (h1 : jsonParse raw = some j) (h2 : hasScoresKey j = false) :
    (recoverDictT raw criteria).2 = Tier.direct
    ∧ sanitize raw criteria = reconcile [] criteria := by
  have hd : recoverDictT raw criteria = (j, Tier.direct) := by
    unfold recoverDictT
    rw [h1]
  constructor
  · rw [hd]
  · unfold sanitize recoveredScores recoverDict
    rw [hd]
    simp only [ensureShape, h2, Bool.false_eq_true, if_false]
    rfl

/-- Claim C5 (witness): the amended theorem at the parsed-but-shapeless
response of the counterexample. -/
theorem c5_witness :
    (recoverDictT "\x7b\"criterion\": \"X\", \"score\": 3, \"justification\": \"ok\"\x7d" ["X"]).2 =
      Tier.direct
    ∧ sanitize "\x7b\"criterion\": \"X\", \"score\": 3, \"justification\": \"ok\"\x7d" ["X"] =
        reconcile [] ["X"] :=
  c5_direct_amended "\x7b\"criterion\": \"X\", \"score\": 3, \"justification\": \"ok\"\x7d" ["X"]
    (Json.obj [("criterion", Json.str "X"), ("score", jint 3),
      ("justification", Json.str "ok")]) rfl rfl

/-- A recovery that ends in the final fallback carries the empty scores
object. -/
lemma recover_tag_empty {raw : String} {criteria : List String}
    (h : (recoverDictT raw criteria).2 = Tier.empty) :
    (recoverDictT raw criteria).1 = scoresJson [] := by
  revert h
  unfold recoverDictT
  split
  · intro h
    simp at h
  · split
    · intro h
      simp at h
    · split
      · intro h
        simp at h
      · split
        · intro h
          simp at h
        · intro _
          rfl

/-- Claim C6: the sanitizer's parse-and-recover step is a total function
(exceptions are absorbed): when every tier fails, each canonical criterion
is mapped to 0, and when the processing loop raises, the handler returns
the all-zero default. -/
theorem c6_never_raises (raw : String) (criteria : List String) :
    (∀ c ∈ criteria, (recoverDictT raw criteria).2 = Tier.empty →
      (Json.str c, (0 : Int)) ∈ sanitize raw criteria)
    ∧ (recoveredScores raw criteria = Except.error () →
      sanitize raw criteria = criteria.map (fun c => (Json.str c, 0))) := by
  constructor
  · intro c hc htag
    have hok : recoveredScores raw criteria = Except.ok [] := by
      unfold recoveredScores recoverDict
      rw [recover_tag_empty htag]
      rfl
    have hs : sanitize raw criteria = reconcile [] criteria := by
      unfold sanitize
      rw [hok]
    rw [hs]
    exact reconcile_covers criteria [] c hc (Or.inl rfl)
  · intro herr
    unfold sanitize
    rw [herr]

/-- Claim C6 (witness): total tier failure (`"!!!"`) maps the canonical
criterion to 0, and a raising loop (`scores` bound to a number) yields the
all-zero default. -/
theorem c6_witness :
    (Json.str "X", (0 : Int)) ∈ sanitize "!!!" ["X"]
    ∧ sanitize "\x7b\"scores\": 3\x7d" ["X"] = [(Json.str "X", 0)] :=
  ⟨(c6_never_raises "!!!" ["X"]).1 "X" (List.mem_singleton.mpr rfl) rfl,
   by rw [(c6_never_raises "\x7b\"scores\": 3\x7d" ["X"]).2 rfl]; rfl⟩

/-- Claim C7 (counterexample): a proposed name passing validation carries
the model's confidence through unchecked — confidence 350 is returned
as-is, outside `[0, 100]`. -/
theorem c7_cex :
    extract_candidate_name "\x7b\"name\": \"Alice Smith\", \"confidence\": 350\x7d"
        (some "resume_123.pdf") =
      ⟨Json.str "Alice Smith", jint 350, Json.str "content_extraction"⟩
    ∧ ¬((350 : Int) ≤ 100) :=
  ⟨rfl, by decide⟩

/-- Claim C7 (amended): the invariant holds per decision-chain branch:
every non-success branch returns `name = filename`; every branch other
than success and `filename_fallback` returns confidence 0; the
`filename_fallback` branch returns confidence 100, `name = filename` and
source `filename_fallback`; the forbidden-name branch reports source
`forbidden_example_name`.  On the success branch name, confidence and
source are the model's own values (so confidence may lie outside
`[0, 100]`). -/
theorem c7_invariant_amended (s : String) (fn : Option String) :
    ((extract_candidate_nameT s fn).2 ≠ NRoute.success →
      (extract_candidate_nameT s fn).1.name = jsonOfOpt fn)
    ∧ ((extract_candidate_nameT s fn).2 ≠ NRoute.success ∧
        (extract_candidate_nameT s fn).2 ≠ NRoute.fallback →
      (extract_candidate_nameT s fn).1.confidence = jint 0)
    ∧ ((extract_candidate_nameT s fn).2 = NRoute.fallback →
      (extract_candidate_nameT s fn).1.confidence = jint 100
      ∧ (extract_candidate_nameT s fn).1.name = jsonOfOpt fn
      ∧ (extract_candidate_nameT s fn).1.source = Json.str "filename_fallback")
    ∧ ((extract_candidate_nameT s fn).2 = NRoute.forbidden →
      (extract_candidate_nameT s fn).1.source = Json.str "forbidden_example_name") := by
  unfold extract_candidate_nameT
  repeat' split
  all_goals simp [rejectWith]

/-- Claim C7 (witness): the amended invariant applied to the forbidden-name
rejection. -/
theorem c7_witness :
    (extract_candidate_nameT "\x7b\"name\": \"Emily Chen\", \"confidence\": 95\x7d"
        (some "f.pdf")).1.name = jsonOfOpt (some "f.pdf")
    ∧ (extract_candidate_nameT "\x7b\"name\": \"Emily Chen\", \"confidence\": 95\x7d"
        (some "f.pdf")).1.confidence = jint 0 :=
  ⟨(c7_invariant_amended "\x7b\"name\": \"Emily Chen\", \"confidence\": 95\x7d"
      (some "f.pdf")).1 (by decide),
   (c7_invariant_amended "\x7b\"name\": \"Emily Chen\", \"confidence\": 95\x7d"
      (some "f.pdf")).2.1 ⟨by decide, by decide⟩⟩

/-- Claim C8: whenever the parsed response proposes a name whose stripped,
lowercased form is exactly `"emily chen"` — whatever the reported
confidence — the first rule of the chain rejects it, returning the
caller's filename, confidence 0 and source `forbidden_example_name`. -/
theorem c8_forbidden_first (s : String) (fn : Option String)
    (fields : List (String × Json)) (nm : String)
    (h1 : jsonParse s = some (Json.obj fields))
    (h2 : pyGetD fields "name" (Json.str "") = Json.str nm)
    (h3 : pyLower (pyStrip nm) = "emily chen") :
    extract_candidate_name s fn =
      ⟨jsonOfOpt fn, jint 0, Json.str "forbidden_example_name"⟩ := by
  unfold extract_candidate_name extract_candidate_nameT
  simp only [h1, h2, h3, beq_self_eq_true, if_true]
  rfl

/-- Claim C8 (witness): the spec's own example — `Emily Chen` at
confidence 95 against `resume_123.pdf`. -/
theorem c8_witness :
    extract_candidate_name "\x7b\"name\": \"Emily Chen\", \"confidence\": 95\x7d"
        (some "resume_123.pdf") =
      ⟨Json.str "resume_123.pdf", jint 0, Json.str "forbidden_example_name"⟩ :=
  c8_forbidden_first "\x7b\"name\": \"Emily Chen\", \"confidence\": 95\x7d"
    (some "resume_123.pdf")
    [("name", Json.str "Emily Chen"), ("confidence", jint 95)] "Emily Chen"
    rfl rfl rfl

end ResumeRanker
